import Mathlib

/-!
Verification development for the ffplayout playout core.

Part 1 embeds the custom filter splitter (`lib/src/filter/custom.rs`,
`filter_node`) over `List Char`.  The Rust function uses the regex
`^;?(\[[^\[]+\])?|\[[^\[]+\]$` with `replace_all`; the first alternative is
anchored at the start of the haystack and the second at its end, so a single
`replace_all` pass removes (a) one optional leading `;?[label]` match and
(b) one trailing `[label]` match, and nothing else.  `stripLead` and
`stripTrail` below model exactly those two removals (with the greedy,
leftmost-first semantics of the rust regex crate: the bracket content is a
nonempty run of non-`[` characters, maximal for the leading match, and the
trailing match starts at the last `[` of the string).

Part 2 embeds `src/output/mod.rs`: `source_generator`, the
`ProcessCleanup` guard and the `player` orchestration loop as oracle-driven
state machines producing explicit event traces.
-/

/-- The video-out link marker `"[c_v_out]"`. -/
def vOutLink : List Char := ['[', 'c', '_', 'v', '_', 'o', 'u', 't', ']']

/-- The audio-out link marker `"[c_a_out]"`. -/
def aOutLink : List Char := ['[', 'c', '_', 'a', '_', 'o', 'u', 't', ']']

/-- The video-input link marker `"[v_in]"`. -/
def vInLink : List Char := ['[', 'v', '_', 'i', 'n', ']']

/-- The "filtering disabled" sentinel `"~"`. -/
def tildeTok : List Char := ['~']

/-- Boolean prefix test, mirroring `str::starts_with`. -/
def startsWithL : List Char → List Char → Bool
  | [], _ => true
  | _ :: _, [] => false
  | a :: ps, b :: ss => if a = b then startsWithL ps ss else false

/-- Index of the first occurrence of `pat` in `s`, mirroring `str::find`
(ASCII inputs, so char index = byte index). -/
def firstOccur (pat : List Char) : List Char → Option Nat
  | [] => if startsWithL pat [] then some 0 else none
  | c :: t =>
      if startsWithL pat (c :: t) then some 0
      else (firstOccur pat t).map (· + 1)

/-- Mirrors `str::contains`. -/
def occursIn (pat s : List Char) : Bool := (firstOccur pat s).isSome

/-- Mirrors `str::split_once`: split at the first occurrence of `pat`,
dropping that occurrence. -/
def splitOnce (pat s : List Char) : Option (List Char × List Char) :=
  match firstOccur pat s with
  | some i => some (s.take i, s.drop (i + pat.length))
  | none => none

/-- Index of the last occurrence of the character `c` in a list. -/
def lastIdxOf (c : Char) : List Char → Option Nat
  | [] => none
  | a :: t =>
      match lastIdxOf c t with
      | some k => some (k + 1)
      | none => if a = c then some 0 else none

/-- Greedy match of `\[[^\[]+\]` at the head of `s` (rust regex semantics:
content is a nonempty run of non-`[` chars, as long as possible, closed by
`]`).  Returns the rest of the string after the match. -/
def matchBracketGreedy (s : List Char) : Option (List Char) :=
  match s with
  | [] => none
  | c :: t =>
      if c = '[' then
        match lastIdxOf ']' (t.takeWhile (fun x => x != '[')) with
        | some k => if 1 ≤ k then some (t.drop (k + 1)) else none
        | none => none
      else none

/-- Remove the single leading `^;?(\[[^\[]+\])?` match (possibly empty). -/
def stripLead (s : List Char) : List Char :=
  let t := if s.head? = some ';' then s.tail else s
  match matchBracketGreedy t with
  | some r => r
  | none => t

/-- On a reversed string, split the tail at the first `[` (= the last `[`
of the original): returns (reversed label content, reversed kept part). -/
def splitAtBracketRev : List Char → Option (List Char × List Char)
  | [] => none
  | c :: t =>
      if c = '[' then some ([], t)
      else (splitAtBracketRev t).map (fun p => (c :: p.1, p.2))

/-- Remove the single trailing `\[[^\[]+\]$` match, when present: the string
must end in `]`, the label starts at the last `[`, and its content is
nonempty (and by construction free of `[`). -/
def stripTrail (s : List Char) : List Char :=
  match s.reverse with
  | [] => s
  | c :: t =>
      if c = ']' then
        match splitAtBracketRev t with
        | some (cont, keepRev) => if cont = [] then s else keepRev.reverse
        | none => s
      else s

/-- One `replace_all` pass of `^;?(\[[^\[]+\])?|\[[^\[]+\]$` with `""`. -/
def reStrip (s : List Char) : List Char := stripTrail (stripLead s)

/-- Result of `filter_node`: the two chains plus whether the
"Custom filter is not well formatted" warning was logged. -/
structure FilterOut where
  video : List Char
  audio : List Char
  warned : Bool
deriving DecidableEq, Repr

/-- The `if`/`else if` chain of `filter_node` (before the `[v_in]`
post-step).  `getD 0` stands for the `unwrap()` on `find`, which cannot
fail there because `contains` was just checked. -/
def filter_node_core (filter : List Char) : FilterOut :=
  if occursIn vOutLink filter && occursIn aOutLink filter then
    let vpos := (firstOccur vOutLink filter).getD 0
    let apos := (firstOccur aOutLink filter).getD 0
    let delim := if apos < vpos then aOutLink else vOutLink
    match splitOnce delim filter with
    | some (f1, f2) =>
        if occursIn aOutLink f2 then ⟨reStrip f1, reStrip f2, false⟩
        else ⟨reStrip f2, reStrip f1, false⟩
    | none => ⟨[], [], false⟩
  else if occursIn vOutLink filter then ⟨reStrip filter, [], false⟩
  else if occursIn aOutLink filter then ⟨[], reStrip filter, false⟩
  else if filter ≠ [] ∧ filter ≠ tildeTok then ⟨[], [], true⟩
  else ⟨[], [], false⟩

/-- Function `filter_node` from `lib/src/filter/custom.rs`: the chain above followed
by the unconditional `starts_with("[v_in]")` re-prepend step. -/
def filter_node (filter : List Char) : FilterOut :=
  let r := filter_node_core filter
  if startsWithL vInLink filter then ⟨vInLink ++ r.video, r.audio, r.warned⟩
  else r

/-! ## Part 2: `src/output/mod.rs`

The subprocess- and channel-facing operations are modelled by oracle
records: each record carries the outcome the outside world returns for the
corresponding syscall (`Ok`/`Err` as a `Bool`, reads as `Option Nat` of the
byte count, `try_recv` as `Option Nat` of the chunk length — the chunk
bytes themselves never influence control flow).  Each operation performed
is recorded as an event, so the theorems can speak about what was done and
in which order.  The unbounded `loop` is driven by a finite oracle list;
running out of oracles yields a distinguished "starved" outcome that no
claim is stated about. -/

/-- Events recorded by the model.  `decSpawn` carries the full decoder
argument vector. -/
inductive Ev where
  | setTerminated
  | ingestStop
  | encKill
  | encWait
  | decSpawn (args : List String)
  | flushEnc
  | decKill
  | decWait
  | setInitPlaylist
  | tryRecv
  | ingestWrite
  | decRead
  | encWrite
  | finalDecWait
deriving DecidableEq, Repr

/-- State owned by the `ProcessCleanup` guard: the value of the shared
`is_terminated` flag and the `is_alive` bit. -/
structure ProcessCleanup where
  isTerminated : Bool
  isAlive : Bool
deriving DecidableEq, Repr

/-- World oracle for one `ProcessCleanup::kill` call: whether the shared
`server_term` slot currently holds a terminator handle, and the `Ok`/`Err`
results of `server.terminate()`, `enc_proc.kill()` and `enc_proc.wait()`
(all three are only logged by the source, never propagated). -/
structure KillWorld where
  serverPresent : Bool
  termOk : Bool
  encKillOk : Bool
  encWaitOk : Bool
deriving DecidableEq, Repr

/-- Method `ProcessCleanup::kill` (also the body of `Drop::drop`): set
`is_terminated`, signal the ingest server at most once (guarded by
`is_alive`, and only when a handle is present), then unconditionally kill
and wait on the encoder.  Total: every world outcome is tolerated. -/
def ProcessCleanup.kill (st : ProcessCleanup) (w : KillWorld) :
    ProcessCleanup × List Ev :=
  let stopEvs := if st.isAlive then
    (if w.serverPresent then [Ev.ingestStop] else []) else []
  let alive2 := if st.isAlive then false else st.isAlive
  (⟨true, alive2⟩, [Ev.setTerminated] ++ stopEvs ++ [Ev.encKill, Ev.encWait])

/-- Repeated invocations of `kill` (explicit calls and/or the `Drop`). -/
def killMany (st : ProcessCleanup) : List KillWorld → ProcessCleanup × List Ev
  | [] => (st, [])
  | w :: ws =>
      let k := st.kill w
      let r := killMany k.1 ws
      (r.1, k.2 ++ r.2)

/-- World oracle for one iteration of the inner byte-multiplexing loop. -/
structure IterIn where
  serverRunning : Bool
  flushOk : Bool
  decKillOk : Bool
  decWaitOk : Bool
  recvChunk : Option Nat
  ingestWriteOk : Bool
  readResult : Option Nat
  encWriteOk : Bool
deriving DecidableEq, Repr

/-- Control outcome of one inner-loop iteration. -/
inductive InnerCtl where
  | next
  | stopItem
  | stopRun
deriving DecidableEq, Repr

/-- One iteration of the inner `loop` of `player` (lines 226–285): returns
the new `live_on`, the events performed, and the control outcome
(`stopItem` = the inner `break` on a zero-byte read, `stopRun` =
`break 'source_iter`). -/
def innerStep (liveOn : Bool) (w : IterIn) : Bool × List Ev × InnerCtl :=
  if w.serverRunning then
    let transEvs := if liveOn then []
      else [Ev.flushEnc, Ev.decKill, Ev.decWait, Ev.setInitPlaylist]
    match w.recvChunk with
    | some _ =>
        if w.ingestWriteOk then
          (true, transEvs ++ [Ev.tryRecv, Ev.ingestWrite], InnerCtl.next)
        else (true, transEvs ++ [Ev.tryRecv, Ev.ingestWrite], InnerCtl.stopRun)
    | none => (true, transEvs ++ [Ev.tryRecv], InnerCtl.next)
  else
    let transEvs := if liveOn then [Ev.flushEnc] else []
    match w.readResult with
    | none => (false, transEvs ++ [Ev.decRead], InnerCtl.stopRun)
    | some n =>
        if 0 < n then
          if w.encWriteOk then
            (false, transEvs ++ [Ev.decRead, Ev.encWrite], InnerCtl.next)
          else (false, transEvs ++ [Ev.decRead, Ev.encWrite], InnerCtl.stopRun)
        else (false, transEvs ++ [Ev.decRead], InnerCtl.stopItem)

/-- How an inner loop run ended. -/
inductive InnerEnd where
  | fuelOut
  | itemDone
  | runError
deriving DecidableEq, Repr

/-- Run the inner loop over a finite oracle list. -/
def runInner (liveOn : Bool) : List IterIn → Bool × List Ev × InnerEnd
  | [] => (liveOn, [], InnerEnd.fuelOut)
  | w :: ws =>
      let step := innerStep liveOn w
      match step.2.2 with
      | InnerCtl.next =>
          let nxt := runInner step.1 ws
          (nxt.1, step.2.1 ++ nxt.2.1, nxt.2.2)
      | InnerCtl.stopItem => (step.1, step.2.1, InnerEnd.itemDone)
      | InnerCtl.stopRun => (step.1, step.2.1, InnerEnd.runError)

/-- A `Media` item as consumed by `player` (`cmd`, `process`, `filter` are
the `Option` fields the loop unwraps; `source`/`seek`/`out` only feed the
log line). -/
structure Media where
  cmd : Option (List String)
  process : Option Bool
  filter : Option (List String)
  source : String
  seek : Int
  out : Int
deriving DecidableEq, Repr

/-- World oracle for one played item: decoder spawn outcome, the inner-loop
iteration oracles, and the result of the final `dec_proc.wait()`. -/
structure ItemWorld where
  spawnOk : Bool
  iters : List IterIn
  finalWaitOk : Bool
deriving DecidableEq, Repr

/-- How the `'source_iter` loop ended. -/
inductive RunEnd where
  | itemsDone
  | errorEnded
  | panicked
  | starved
deriving DecidableEq, Repr

/-- The fixed diagnostic/log-level flags heading every decoder command. -/
def ffBase (ffLog : String) : List String :=
  ["-hide_banner", "-nostats", "-v", ffLog]

/-- Decoder argument vector assembly (lines 192–199): fixed flags, the
item's decode command, the filter tokens only when the filter list has more
than one token, then the global decode settings. -/
def buildDecCmd (ffLog : String) (dec_settings cmd filterL : List String) :
    List String :=
  ffBase ffLog ++ cmd ++ (if 1 < filterL.length then filterL else []) ++
    dec_settings

/-- The `'source_iter` item loop (lines 174–290).  `panicked` covers the
`unwrap()` on a missing `process` or `filter` field, a decoder spawn
failure, and the `panic!` on a failing final `dec_proc.wait()`. -/
def runItems (ffLog : String) (dec_settings : List String) :
    List Media → List ItemWorld → Bool → List Ev × Bool × RunEnd
  | [], _, live => ([], live, RunEnd.itemsDone)
  | node :: rest, worlds, live =>
      match node.cmd with
      | none => ([], live, RunEnd.itemsDone)
      | some cmd =>
          match node.process with
          | none => ([], live, RunEnd.panicked)
          | some false => runItems ffLog dec_settings rest worlds live
          | some true =>
              match node.filter with
              | none => ([], live, RunEnd.panicked)
              | some filterL =>
                  match worlds with
                  | [] => ([], live, RunEnd.starved)
                  | w :: wrest =>
                      if w.spawnOk = false then ([], live, RunEnd.panicked)
                      else
                        let args := buildDecCmd ffLog dec_settings cmd filterL
                        let inner := runInner live w.iters
                        match inner.2.2 with
                        | InnerEnd.fuelOut =>
                            (Ev.decSpawn args :: inner.2.1, inner.1,
                              RunEnd.starved)
                        | InnerEnd.runError =>
                            (Ev.decSpawn args :: inner.2.1, inner.1,
                              RunEnd.errorEnded)
                        | InnerEnd.itemDone =>
                            if w.finalWaitOk then
                              let r := runItems ffLog dec_settings rest wrest
                                inner.1
                              (Ev.decSpawn args :: inner.2.1 ++
                                [Ev.finalDecWait] ++ r.1, r.2.1, r.2.2)
                            else
                              (Ev.decSpawn args :: inner.2.1 ++
                                [Ev.finalDecWait], inner.1, RunEnd.panicked)

/-- The world for a whole `player` run: the item sequence yielded by the
source, the per-item oracles, and oracles for the explicit cleanup call
and for the `Drop`-driven one. -/
structure PlayerWorld where
  items : List Media
  itemWorlds : List ItemWorld
  killW1 : KillWorld
  killW2 : KillWorld
deriving DecidableEq, Repr

/-- Observable fate of the `player` process. -/
inductive Outcome where
  | exitedNormally
  | panicked
  | starved
deriving DecidableEq, Repr

/-- Function `player` (lines 130–295): run the item loop starting with
`live_on = false`; on normal fall-through (items exhausted, a `cmd`-less
item, or `break 'source_iter`) the explicit `proc_cleanup.kill()` runs and
then the scope-exit `Drop` runs `kill` a second time; on a panic the
unwinding still runs the `Drop` cleanup once, but the process aborts.
`t0` is the ambient value of the shared `is_terminated` flag. -/
def player (ffLog : String) (dec_settings : List String) (t0 : Bool)
    (pw : PlayerWorld) : List Ev × Outcome :=
  let r := runItems ffLog dec_settings pw.items pw.itemWorlds false
  match r.2.2 with
  | RunEnd.itemsDone =>
      let k1 := ProcessCleanup.kill ⟨t0, true⟩ pw.killW1
      let k2 := ProcessCleanup.kill k1.1 pw.killW2
      (r.1 ++ k1.2 ++ k2.2, Outcome.exitedNormally)
  | RunEnd.errorEnded =>
      let k1 := ProcessCleanup.kill ⟨t0, true⟩ pw.killW1
      let k2 := ProcessCleanup.kill k1.1 pw.killW2
      (r.1 ++ k1.2 ++ k2.2, Outcome.exitedNormally)
  | RunEnd.panicked =>
      let k := ProcessCleanup.kill ⟨t0, true⟩ pw.killW1
      (r.1 ++ k.2, Outcome.panicked)
  | RunEnd.starved => (r.1, Outcome.starved)

/-- Configuration slice consumed by `source_generator`. -/
structure SourceConfig where
  mode : String
  storagePath : String
deriving DecidableEq, Repr

/-- Which producer `source_generator` built. -/
inductive SourceKind where
  | folderSrc
  | playlistSrc
deriving DecidableEq, Repr

/-- Result of `source_generator`: either `process::exit(code)` or a
returned item sequence together with the initial `init_playlist` flag. -/
inductive SGOut where
  | exitCode (code : Nat)
  | src (k : SourceKind) (initFlag : Bool)
deriving DecidableEq, Repr

/-- Function `source_generator` (lines 83–128).  `pathExists` is the world's answer
to `Path::new(&path).exists()`; `programInit` is the initial value of
`CurrentProgram`'s `init` flag (constructed in `src/input`, outside this
module).  Both fatal paths call `process::exit(0x0100)`. -/
def source_generator (cfg : SourceConfig) (pathExists : Bool)
    (programInit : Bool) : SGOut :=
  if cfg.mode = "folder" then
    if pathExists = false then SGOut.exitCode 256
    else SGOut.src SourceKind.folderSrc false
  else if cfg.mode = "playlist" then SGOut.src SourceKind.playlistSrc
    programInit
  else SGOut.exitCode 256

/-- The fixed byte-buffer size used for all stream reads/writes and for
ingest chunks (`[u8; 65088]`, lines 136 and 155–158). -/
def bufferSize : Nat := 65088

/-- The MPEG transport-stream packet size the spec says the buffer is
aligned to. -/
def tsPacketSize : Nat := 188

/-! ## Helper lemmas -/

/-- The events emitted exclusively by `ProcessCleanup.kill` (nothing inside
the item loop produces them). -/
def cleanupEv : Ev → Bool
  | Ev.setTerminated => true
  | Ev.ingestStop => true
  | Ev.encKill => true
  | Ev.encWait => true
  | _ => false

/-- Predicate picking out decoder-spawn events. -/
def isSpawnEv : Ev → Bool
  | Ev.decSpawn _ => true
  | _ => false

/-- A concrete playable item (decode command present, `process = true`,
empty filter list). -/
def mediaA : Media :=
  ⟨some ["-i", "a.mp4"], some true, some [], "a.mp4", 0, 10⟩

/-- Scheduled-state iteration whose decoder read reports EOF (0 bytes). -/
def iterEof : IterIn := ⟨false, true, true, true, none, true, some 0, true⟩

/-- Scheduled-state iteration whose decoder read fails. -/
def iterReadErr : IterIn := ⟨false, true, true, true, none, true, none, true⟩

/-- Cleanup-call world with the ingest-stop handle present. -/
def kwPresent : KillWorld := ⟨true, true, true, true⟩

/-- Concrete ffmpeg log-level flag value. -/
def ffW : String := "level+info"

/-- Concrete global decode settings. -/
def dsW : List String := ["-c", "copy"]

/-- One item whose decoder is exhausted normally but whose final
`dec_proc.wait()` fails. -/
def pwWaitErr : PlayerWorld :=
  ⟨[mediaA], [⟨true, [iterEof], false⟩], kwPresent, kwPresent⟩

/-- Two items; the first hits a decoder read error mid-stream. -/
def pwReadErr : PlayerWorld :=
  ⟨[mediaA, mediaA], [⟨true, [iterReadErr], true⟩, ⟨true, [iterEof], true⟩],
    kwPresent, kwPresent⟩

theorem count_le_countP {l : List Ev} {p : Ev → Bool} {e : Ev}
    (he : p e = true) : l.count e ≤ l.countP p := by
  have h : l.countP (· == e) ≤ l.countP p := by
    apply List.countP_mono_left
    intro a _ hae
    have hae2 : a = e := by simpa using hae
    rw [hae2]; exact he
  exact h

theorem innerStep_cleanupFree (live : Bool) (w : IterIn) :
    (innerStep live w).2.1.countP cleanupEv = 0 := by
  rcases w with ⟨sr, f, dk, dw, rc, iw, rr, ew⟩
  cases sr <;> cases live <;> rcases rc with _ | m <;> rcases rr with _ | n <;>
    cases iw <;> cases ew <;> simp only [innerStep] <;> split_ifs <;> rfl

theorem runInner_cleanupFree (live : Bool) (ws : List IterIn) :
    (runInner live ws).2.1.countP cleanupEv = 0 := by
  induction ws generalizing live with
  | nil => rfl
  | cons w ws ih =>
      rcases hc : (innerStep live w).2.2 with _ | _ | _ <;>
        simp [runInner, hc, List.countP_append, innerStep_cleanupFree, ih]

theorem runItems_cleanupFree (ffLog : String) (ds : List String)
    (items : List Media) (worlds : List ItemWorld) (live : Bool) :
    (runItems ffLog ds items worlds live).1.countP cleanupEv = 0 := by
  induction items generalizing worlds live with
  | nil => rfl
  | cons node rest ih =>
      rcases hcmd : node.cmd with _ | c
      · simp [runItems, hcmd]
      rcases hp : node.process with _ | b
      · simp [runItems, hcmd, hp]
      cases b
      · simpa [runItems, hcmd, hp] using ih worlds live
      rcases hf : node.filter with _ | fl
      · simp [runItems, hcmd, hp, hf]
      cases worlds with
      | nil => simp [runItems, hcmd, hp, hf]
      | cons w wrest =>
          by_cases hs : w.spawnOk = false
          · simp [runItems, hcmd, hp, hf, hs]
          rcases hie : (runInner live w.iters).2.2 with _ | _ | _ <;>
            by_cases hfw : w.finalWaitOk <;>
              simp [runItems, hcmd, hp, hf, hs, hie, hfw, List.countP_append,
                List.countP_cons, runInner_cleanupFree, cleanupEv, ih]

theorem runItems_count_zero {ffLog : String} {ds : List String}
    {items : List Media} {worlds : List ItemWorld} {live : Bool} {e : Ev}
    (he : cleanupEv e = true) :
    (runItems ffLog ds items worlds live).1.count e = 0 := by
  have h := count_le_countP (l := (runItems ffLog ds items worlds live).1) he
  rw [runItems_cleanupFree] at h
  omega

theorem kill_trace_counts (st : ProcessCleanup) (w : KillWorld) :
    (st.kill w).2.count Ev.setTerminated = 1 ∧
    (st.kill w).2.count Ev.encKill = 1 ∧
    (st.kill w).2.count Ev.encWait = 1 ∧
    (st.kill w).2.count Ev.ingestStop =
      (if st.isAlive ∧ w.serverPresent then 1 else 0) := by
  rcases st with ⟨t, al⟩
  cases al <;> by_cases hs : w.serverPresent = true <;>
    simp [ProcessCleanup.kill, hs]

theorem kill_dead_state (t : Bool) (w : KillWorld) :
    (ProcessCleanup.kill ⟨t, false⟩ w) =
      (⟨true, false⟩, [Ev.setTerminated, Ev.encKill, Ev.encWait]) := by
  simp [ProcessCleanup.kill]

theorem killMany_dead_counts (ws : List KillWorld) :
    (killMany ⟨true, false⟩ ws).1 = ⟨true, false⟩ ∧
    (killMany ⟨true, false⟩ ws).2.count Ev.setTerminated = ws.length ∧
    (killMany ⟨true, false⟩ ws).2.count Ev.encKill = ws.length ∧
    (killMany ⟨true, false⟩ ws).2.count Ev.encWait = ws.length ∧
    (killMany ⟨true, false⟩ ws).2.count Ev.ingestStop = 0 := by
  induction ws with
  | nil => exact ⟨rfl, rfl, rfl, rfl, rfl⟩
  | cons w ws ih =>
      obtain ⟨h1, h2, h3, h4, h5⟩ := ih
      simp [killMany, kill_dead_state, List.count_append, h1, h2, h3, h4, h5,
        List.count_cons]

theorem kill_scrubbed (st : ProcessCleanup) (w : KillWorld) :
    st.kill w = st.kill ⟨w.serverPresent, true, true, true⟩ := by
  rcases w with ⟨sp, a, b, c⟩
  rfl

theorem runInner_count_zero {live : Bool} {ws : List IterIn} {e : Ev}
    (he : cleanupEv e = true) : (runInner live ws).2.1.count e = 0 := by
  have h := count_le_countP (l := (runInner live ws).2.1) he
  rw [runInner_cleanupFree] at h
  omega

theorem kill_live_state (t : Bool) (w : KillWorld) :
    (ProcessCleanup.kill ⟨t, true⟩ w).1 = ⟨true, false⟩ := by
  simp [ProcessCleanup.kill]

/-! ## Claim theorems -/

/-- C2 counterexample: the fixed buffer size 65088 is NOT an exact multiple
of the 188-byte transport-stream packet size, contrary to the claim. -/
theorem buffer_not_ts_aligned_cex : ¬ (bufferSize % tsPacketSize = 0) := by
  decide

/-- C2 (amended): 65088 = 346·188 + 40, so the byte buffer used for
live-ingest chunks and stream reads/writes is not transport-stream packet
aligned: dividing it by 188 leaves remainder 40. -/
theorem buffer_size_remainder :
    bufferSize % tsPacketSize = 40 ∧
    bufferSize = 346 * tsPacketSize + 40 ∧
    tsPacketSize * (bufferSize / tsPacketSize) ≠ bufferSize := by
  decide

/-- C8: `source_generator` in folder mode with a nonexistent storage path,
or with an unrecognized mode, terminates the process with the distinct
non-zero status `0x0100` and never returns an item sequence on those
paths. -/
theorem source_generator_fatal_modes (cfg : SourceConfig) (pE pI : Bool) :
    (cfg.mode = "folder" → pE = false →
      source_generator cfg pE pI = SGOut.exitCode 256 ∧ (256 : Nat) ≠ 0 ∧
      ∀ k b, source_generator cfg pE pI ≠ SGOut.src k b) ∧
    (cfg.mode ≠ "folder" → cfg.mode ≠ "playlist" →
      source_generator cfg pE pI = SGOut.exitCode 256 ∧ (256 : Nat) ≠ 0 ∧
      ∀ k b, source_generator cfg pE pI ≠ SGOut.src k b) := by
  constructor <;> intro h1 h2 <;> simp [source_generator, h1, h2]

/-- C8 witness: concrete fatal configuration (unrecognized mode). -/
theorem source_generator_fatal_modes_wit :
    source_generator ⟨"hls", "/tv"⟩ true false = SGOut.exitCode 256 ∧
    (256 : Nat) ≠ 0 ∧
    ∀ k b, source_generator ⟨"hls", "/tv"⟩ true false ≠ SGOut.src k b :=
  (source_generator_fatal_modes ⟨"hls", "/tv"⟩ true false).2 (by decide)
    (by decide)

/-- C4: over any nonempty sequence of `kill` invocations (explicit calls
and/or the `Drop`) starting from a live guard, the termination flag is set
by every call, the encoder is killed and waited on by every call, the
ingest-stop handle is invoked exactly once when present at the first call
and never more than once, and the outcome is independent of the `Ok`/`Err`
results of terminate/kill/wait (no error escalates — `kill` is total). -/
theorem cleanup_idempotent (b : Bool) (w : KillWorld) (ws : List KillWorld) :
    (killMany ⟨b, true⟩ (w :: ws)).1.isTerminated = true ∧
    (killMany ⟨b, true⟩ (w :: ws)).2.count Ev.setTerminated =
      (w :: ws).length ∧
    (killMany ⟨b, true⟩ (w :: ws)).2.count Ev.encKill = (w :: ws).length ∧
    (killMany ⟨b, true⟩ (w :: ws)).2.count Ev.encWait = (w :: ws).length ∧
    (killMany ⟨b, true⟩ (w :: ws)).2.count Ev.ingestStop =
      (if w.serverPresent then 1 else 0) ∧
    killMany ⟨b, true⟩ (w :: ws) =
      killMany ⟨b, true⟩
        ((w :: ws).map fun x => ⟨x.serverPresent, true, true, true⟩) := by
  obtain ⟨d1, d2, d3, d4, d5⟩ := killMany_dead_counts ws
  have hk1 : (ProcessCleanup.kill ⟨b, true⟩ w).1 = ⟨true, false⟩ := by
    simp [ProcessCleanup.kill]
  have hscrub : ∀ (st : ProcessCleanup) (vs : List KillWorld),
      killMany st vs =
        killMany st (vs.map fun x => ⟨x.serverPresent, true, true, true⟩) := by
    intro st vs
    induction vs generalizing st with
    | nil => rfl
    | cons v vs ih => simp [killMany, ← kill_scrubbed, ih]
  refine ⟨?_, ?_, ?_, ?_, ?_, hscrub _ _⟩ <;>
    by_cases hs : w.serverPresent = true <;>
      simp [killMany, ProcessCleanup.kill, hs, hk1, List.count_append,
        List.count_cons, d1, d2, d3, d4, d5]

/-- C10: an item whose `cmd` is present but whose `process` flag is `None`
panics the whole run via `unwrap()`; likewise a `process = Some(true)` item
with a `None` filter list; a `process = Some(false)` item is skipped
without touching its filter field. -/
theorem item_missing_fields_panics (ffLog : String) (ds : List String)
    (node : Media) (rest : List Media) (worlds : List ItemWorld) (live : Bool)
    (c : List String) (hc : node.cmd = some c) :
    (node.process = none →
      runItems ffLog ds (node :: rest) worlds live =
        ([], live, RunEnd.panicked)) ∧
    (node.process = some true → node.filter = none →
      runItems ffLog ds (node :: rest) worlds live =
        ([], live, RunEnd.panicked)) ∧
    (node.process = some false →
      runItems ffLog ds (node :: rest) worlds live =
        runItems ffLog ds rest worlds live) := by
  refine ⟨fun h => ?_, fun h hf => ?_, fun h => ?_⟩ <;>
    simp [runItems, hc, h]
  simp [hf]

/-- C10 witness: a concrete item with a decode command but `process = None`
panics; one with `process = Some(true)` and `filter = None` panics. -/
theorem item_missing_fields_panics_wit :
    ((⟨some ["-i", "x.mp4"], none, none, "x.mp4", 0, 10⟩ : Media).process =
        none →
      runItems ffW dsW
          [⟨some ["-i", "x.mp4"], none, none, "x.mp4", 0, 10⟩] [] false =
        ([], false, RunEnd.panicked)) ∧
    ((⟨some ["-i", "x.mp4"], none, none, "x.mp4", 0, 10⟩ : Media).process =
        some true →
      (⟨some ["-i", "x.mp4"], none, none, "x.mp4", 0, 10⟩ : Media).filter =
        none →
      runItems ffW dsW
          [⟨some ["-i", "x.mp4"], none, none, "x.mp4", 0, 10⟩] [] false =
        ([], false, RunEnd.panicked)) ∧
    ((⟨some ["-i", "x.mp4"], none, none, "x.mp4", 0, 10⟩ : Media).process =
        some false →
      runItems ffW dsW
          [⟨some ["-i", "x.mp4"], none, none, "x.mp4", 0, 10⟩] [] false =
        runItems ffW dsW [] [] false) :=
  item_missing_fields_panics ffW dsW
    ⟨some ["-i", "x.mp4"], none, none, "x.mp4", 0, 10⟩ [] [] false
    ["-i", "x.mp4"] rfl

/-- C7: for an item that is actually played, the decoder argument vector is
the fixed diagnostic flags, then the item's decode command, then the filter
tokens only when the filter list has strictly more than one token, then the
global decode settings — in that order; a filter list of length ≤ 1
contributes nothing. -/
theorem dec_cmd_order (ffLog : String) (ds : List String) (node : Media)
    (rest : List Media) (w : ItemWorld) (ws : List ItemWorld) (live : Bool)
    (c f : List String) (hc : node.cmd = some c)
    (hp : node.process = some true) (hf : node.filter = some f)
    (hs : w.spawnOk = true) :
    (runItems ffLog ds (node :: rest) (w :: ws) live).1.head? =
      some (Ev.decSpawn (ffBase ffLog ++ c ++
        (if 1 < f.length then f else []) ++ ds)) ∧
    (f.length ≤ 1 →
      (runItems ffLog ds (node :: rest) (w :: ws) live).1.head? =
        some (Ev.decSpawn (ffBase ffLog ++ c ++ ds))) := by
  have hmain : (runItems ffLog ds (node :: rest) (w :: ws) live).1.head? =
      some (Ev.decSpawn (ffBase ffLog ++ c ++
        (if 1 < f.length then f else []) ++ ds)) := by
    rcases hie : (runInner live w.iters).2.2 with _ | _ | _ <;>
      by_cases hfw : w.finalWaitOk <;>
        simp [runItems, hc, hp, hf, hs, hie, hfw, buildDecCmd]
  refine ⟨hmain, fun hlen => ?_⟩
  have : ¬ 1 < f.length := by omega
  simpa [this] using hmain

/-- C7 witness: a concrete played item; with a 2-token filter list the
filter tokens are included between the command tokens and the settings. -/
theorem dec_cmd_order_wit :
    (runItems ffW dsW
        [⟨some ["-i", "x.mp4"], some true,
          some ["-filter_complex", "[0:v]null[c_v_out]"], "x.mp4", 0, 10⟩]
        [⟨true, [], true⟩] false).1.head? =
      some (Ev.decSpawn (ffBase ffW ++ ["-i", "x.mp4"] ++
        (if 1 < (["-filter_complex", "[0:v]null[c_v_out]"] :
            List String).length then
          ["-filter_complex", "[0:v]null[c_v_out]"] else []) ++
        ["-c", "copy"])) ∧
    ((["-filter_complex", "[0:v]null[c_v_out]"] : List String).length ≤ 1 →
      (runItems ffW dsW
          [⟨some ["-i", "x.mp4"], some true,
            some ["-filter_complex", "[0:v]null[c_v_out]"], "x.mp4", 0, 10⟩]
          [⟨true, [], true⟩] false).1.head? =
        some (Ev.decSpawn (ffBase ffW ++ ["-i", "x.mp4"] ++
          ["-c", "copy"]))) :=
  dec_cmd_order ffW dsW
    ⟨some ["-i", "x.mp4"], some true,
      some ["-filter_complex", "[0:v]null[c_v_out]"], "x.mp4", 0, 10⟩
    [] ⟨true, [], true⟩ [] false ["-i", "x.mp4"]
    ["-filter_complex", "[0:v]null[c_v_out]"] rfl rfl rfl rfl

/-- C6: in any inner-loop iteration where the shared ingest-running flag
reads true, no decoder read (and no decoder-byte write) happens; exactly
one non-blocking channel receive is attempted and at most one chunk is
written; the state is marked live; on the first such iteration
(`live_on = false`) the step starts by flushing the encoder, killing and
waiting the decoder, and setting the reinitialize flag, and on later
iterations none of those transition actions recur. -/
theorem live_iteration_behavior (liveOn : Bool) (w : IterIn)
    (h : w.serverRunning = true) :
    (innerStep liveOn w).2.1.count Ev.decRead = 0 ∧
    (innerStep liveOn w).2.1.count Ev.encWrite = 0 ∧
    (innerStep liveOn w).2.1.count Ev.tryRecv = 1 ∧
    (innerStep liveOn w).2.1.count Ev.ingestWrite ≤ 1 ∧
    (innerStep liveOn w).1 = true ∧
    (liveOn = false →
      (innerStep liveOn w).2.1.take 4 =
        [Ev.flushEnc, Ev.decKill, Ev.decWait, Ev.setInitPlaylist]) ∧
    (liveOn = true →
      (innerStep liveOn w).2.1.count Ev.flushEnc = 0 ∧
      (innerStep liveOn w).2.1.count Ev.decKill = 0 ∧
      (innerStep liveOn w).2.1.count Ev.decWait = 0 ∧
      (innerStep liveOn w).2.1.count Ev.setInitPlaylist = 0) := by
  rcases w with ⟨sr, f, dk, dw, rc, iw, rr, ew⟩
  cases sr
  · exact nomatch h
  cases liveOn <;> rcases rc with _ | m <;> cases iw <;>
    simp [innerStep]

/-- C6 witness: concrete first live iteration with a pending chunk. -/
theorem live_iteration_behavior_wit :
    (innerStep false ⟨true, true, true, true, some 188, true, some 0,
        true⟩).2.1.count Ev.decRead = 0 ∧
    (innerStep false ⟨true, true, true, true, some 188, true, some 0,
        true⟩).2.1.count Ev.encWrite = 0 ∧
    (innerStep false ⟨true, true, true, true, some 188, true, some 0,
        true⟩).2.1.count Ev.tryRecv = 1 ∧
    (innerStep false ⟨true, true, true, true, some 188, true, some 0,
        true⟩).2.1.count Ev.ingestWrite ≤ 1 ∧
    (innerStep false ⟨true, true, true, true, some 188, true, some 0,
        true⟩).1 = true ∧
    ((false : Bool) = false →
      (innerStep false ⟨true, true, true, true, some 188, true, some 0,
          true⟩).2.1.take 4 =
        [Ev.flushEnc, Ev.decKill, Ev.decWait, Ev.setInitPlaylist]) ∧
    ((false : Bool) = true →
      (innerStep false ⟨true, true, true, true, some 188, true, some 0,
          true⟩).2.1.count Ev.flushEnc = 0 ∧
      (innerStep false ⟨true, true, true, true, some 188, true, some 0,
          true⟩).2.1.count Ev.decKill = 0 ∧
      (innerStep false ⟨true, true, true, true, some 188, true, some 0,
          true⟩).2.1.count Ev.decWait = 0 ∧
      (innerStep false ⟨true, true, true, true, some 188, true, some 0,
          true⟩).2.1.count Ev.setInitPlaylist = 0) :=
  live_iteration_behavior false
    ⟨true, true, true, true, some 188, true, some 0, true⟩ rfl

/-- C1 counterexample: with a concrete run in which the decoder is
exhausted normally and the final `dec_proc.wait()` then fails, the run does
NOT break out cleanly and exit normally — it panics (aborts the process). -/
theorem decoder_wait_error_panics_cex :
    (player ffW dsW false pwWaitErr).2 = Outcome.panicked ∧
    (player ffW dsW false pwWaitErr).2 ≠ Outcome.exitedNormally := by
  decide

/-- C1 (amended): a wait-error on the decoder subprocess after the inner
byte loop ends is process-fatal: the run aborts via `panic!` instead of
breaking out of the playout loop; the guard's cleanup still runs once
during unwinding (one encoder kill/wait), but the process does not exit
normally. -/
theorem decoder_wait_error_aborts (ffLog : String) (ds : List String)
    (t0 : Bool) (pw : PlayerWorld) (node : Media) (rest : List Media)
    (w : ItemWorld) (ws : List ItemWorld) (c f : List String)
    (hi : pw.items = node :: rest) (hw : pw.itemWorlds = w :: ws)
    (hc : node.cmd = some c) (hp : node.process = some true)
    (hf : node.filter = some f) (hs : w.spawnOk = true)
    (hinner : (runInner false w.iters).2.2 = InnerEnd.itemDone)
    (hwait : w.finalWaitOk = false) :
    (player ffLog ds t0 pw).2 = Outcome.panicked ∧
    (player ffLog ds t0 pw).1.count Ev.encKill = 1 ∧
    (player ffLog ds t0 pw).1.count Ev.encWait = 1 := by
  obtain ⟨k1, k2, k3, k4⟩ := kill_trace_counts ⟨t0, true⟩ pw.killW1
  have hrun : runItems ffLog ds pw.items pw.itemWorlds false =
      (Ev.decSpawn (buildDecCmd ffLog ds c f) ::
        ((runInner false w.iters).2.1 ++ [Ev.finalDecWait]),
        (runInner false w.iters).1, RunEnd.panicked) := by
    rw [hi, hw]
    simp [runItems, hc, hp, hf, hs, hinner, hwait]
  refine ⟨?_, ?_, ?_⟩ <;>
    simp [player, hrun, List.count_append, List.count_cons, beq_iff_eq,
      runInner_count_zero, cleanupEv, k2, k3]

/-- C1 witness: the amended behavior at the concrete wait-error run. -/
theorem decoder_wait_error_aborts_wit :
    (player ffW dsW false pwWaitErr).2 = Outcome.panicked ∧
    (player ffW dsW false pwWaitErr).1.count Ev.encKill = 1 ∧
    (player ffW dsW false pwWaitErr).1.count Ev.encWait = 1 :=
  decoder_wait_error_aborts ffW dsW false pwWaitErr mediaA []
    ⟨true, [iterEof], false⟩ [] ["-i", "a.mp4"] [] rfl rfl rfl rfl rfl rfl
    (by decide) rfl

/-- C5 counterexample: a decoder read error on the first of two items ends
the whole run (only one decoder is ever spawned) and the process exits
normally — but the lifecycle guard's cleanup is triggered TWICE (the
explicit `kill()` plus the `Drop`), not exactly once. -/
theorem stream_error_double_cleanup_cex :
    (runItems ffW dsW pwReadErr.items pwReadErr.itemWorlds false).2.2 =
      RunEnd.errorEnded ∧
    (player ffW dsW false pwReadErr).2 = Outcome.exitedNormally ∧
    (player ffW dsW false pwReadErr).1.countP isSpawnEv = 1 ∧
    (player ffW dsW false pwReadErr).1.count Ev.setTerminated = 2 ∧
    ¬ ((player ffW dsW false pwReadErr).1.count Ev.setTerminated = 1) := by
  decide

/-- C5 (amended): a decoder read error or an encoder write error (either
state) breaks out of the entire item loop — the remaining items are never
touched — after which the run ends normally and the lifecycle guard's
cleanup runs twice (once explicitly and once via the scope-exit `Drop`,
the second being an idempotent repeat), with the ingest-stop handle
invoked at most once. -/
theorem stream_error_ends_run (ffLog : String) (ds : List String)
    (t0 : Bool) (pw : PlayerWorld) (node : Media) (rest : List Media)
    (w : ItemWorld) (ws : List ItemWorld) (c f : List String)
    (hi : pw.items = node :: rest) (hw : pw.itemWorlds = w :: ws)
    (hc : node.cmd = some c) (hp : node.process = some true)
    (hf : node.filter = some f) (hs : w.spawnOk = true)
    (hinner : (runInner false w.iters).2.2 = InnerEnd.runError) :
    runItems ffLog ds pw.items pw.itemWorlds false =
      (Ev.decSpawn (buildDecCmd ffLog ds c f) ::
        (runInner false w.iters).2.1, (runInner false w.iters).1,
        RunEnd.errorEnded) ∧
    (player ffLog ds t0 pw).2 = Outcome.exitedNormally ∧
    (player ffLog ds t0 pw).1.count Ev.setTerminated = 2 ∧
    (player ffLog ds t0 pw).1.count Ev.ingestStop ≤ 1 := by
  obtain ⟨k1, k2, k3, k4⟩ := kill_trace_counts ⟨t0, true⟩ pw.killW1
  have hrun : runItems ffLog ds pw.items pw.itemWorlds false =
      (Ev.decSpawn (buildDecCmd ffLog ds c f) ::
        (runInner false w.iters).2.1, (runInner false w.iters).1,
        RunEnd.errorEnded) := by
    rw [hi, hw]
    simp [runItems, hc, hp, hf, hs, hinner]
  refine ⟨hrun, ?_, ?_, ?_⟩
  · simp [player, hrun]
  · simp [player, hrun, kill_live_state, kill_dead_state, List.count_append,
      List.count_cons, beq_iff_eq, runInner_count_zero, cleanupEv, k1]
  · by_cases hsp : pw.killW1.serverPresent = true <;>
      simp [player, hrun, kill_live_state, kill_dead_state,
        List.count_append, List.count_cons, beq_iff_eq, runInner_count_zero,
        cleanupEv, k4, hsp]

/-- C5 witness: the amended behavior at the concrete read-error run. -/
theorem stream_error_ends_run_wit :
    runItems ffW dsW pwReadErr.items pwReadErr.itemWorlds false =
      (Ev.decSpawn (buildDecCmd ffW dsW ["-i", "a.mp4"] []) ::
        (runInner false [iterReadErr]).2.1,
        (runInner false [iterReadErr]).1, RunEnd.errorEnded) ∧
    (player ffW dsW false pwReadErr).2 = Outcome.exitedNormally ∧
    (player ffW dsW false pwReadErr).1.count Ev.setTerminated = 2 ∧
    (player ffW dsW false pwReadErr).1.count Ev.ingestStop ≤ 1 :=
  stream_error_ends_run ffW dsW false pwReadErr mediaA [mediaA]
    ⟨true, [iterReadErr], true⟩ [⟨true, [iterEof], true⟩] ["-i", "a.mp4"] []
    rfl rfl rfl rfl rfl rfl (by decide)

/-! ## String-splitting lemmas for the filter splitter -/

theorem startsWithL_refl (p : List Char) : startsWithL p p = true := by
  induction p with
  | nil => rfl
  | cons x ps ih => simp [startsWithL, ih]

theorem startsWithL_self_append (p r : List Char) :
    startsWithL p (p ++ r) = true := by
  induction p with
  | nil => rfl
  | cons x ps ih => simp [startsWithL, ih]

theorem startsWithL_cons_same (x : Char) (ps ss : List Char) :
    startsWithL (x :: ps) (x :: ss) = startsWithL ps ss := by
  simp [startsWithL]

theorem startsWithL_cons_diff {x y : Char} (ps ss : List Char)
    (h : ¬ x = y) : startsWithL (x :: ps) (y :: ss) = false := by
  simp [startsWithL, h]

theorem firstOccur_of_starts {p s : List Char}
    (h : startsWithL p s = true) : firstOccur p s = some 0 := by
  cases s <;> simp [firstOccur, h]

theorem firstOccur_cons_not {p : List Char} {c : Char} {t : List Char}
    (h : startsWithL p (c :: t) = false) :
    firstOccur p (c :: t) = (firstOccur p t).map (· + 1) := by
  simp [firstOccur, h]

theorem firstOccur_bracket_append (pt l s : List Char)
    (hl : '[' ∉ l) :
    firstOccur ('[' :: pt) (l ++ s) =
      (firstOccur ('[' :: pt) s).map (· + l.length) := by
  induction l with
  | nil =>
      rw [List.nil_append]
      cases firstOccur ('[' :: pt) s <;> simp
  | cons c t ih =>
      have hc : ¬ ('[' : Char) = c := by
        intro h
        exact hl (by simp [← h])
      have hsw : startsWithL ('[' :: pt) (c :: (t ++ s)) = false :=
        startsWithL_cons_diff _ _ hc
      rw [List.cons_append, firstOccur_cons_not hsw,
        ih (fun hm => hl (List.mem_cons_of_mem _ hm))]
      cases firstOccur ('[' :: pt) s <;> simp [Nat.add_assoc]

theorem occursIn_bracket_none {pt l : List Char} (hl : '[' ∉ l) :
    occursIn ('[' :: pt) l = false := by
  have h := firstOccur_bracket_append pt l [] hl
  rw [List.append_nil] at h
  simp [occursIn, h, firstOccur, startsWithL]

theorem firstOccur_vOut_skip (l s : List Char) (hl : '[' ∉ l) :
    firstOccur vOutLink (l ++ s) =
      (firstOccur vOutLink s).map (· + l.length) :=
  firstOccur_bracket_append ['c', '_', 'v', '_', 'o', 'u', 't', ']'] l s hl

theorem firstOccur_aOut_skip (l s : List Char) (hl : '[' ∉ l) :
    firstOccur aOutLink (l ++ s) =
      (firstOccur aOutLink s).map (· + l.length) :=
  firstOccur_bracket_append ['c', '_', 'a', '_', 'o', 'u', 't', ']'] l s hl

theorem firstOccur_vOut_self (s : List Char) :
    firstOccur vOutLink (vOutLink ++ s) = some 0 :=
  firstOccur_of_starts (startsWithL_self_append _ _)

theorem firstOccur_aOut_refl : firstOccur aOutLink aOutLink = some 0 :=
  firstOccur_of_starts (startsWithL_refl _)

theorem firstOccur_aOut_past_vOut (s : List Char) :
    firstOccur aOutLink (vOutLink ++ s) =
      (firstOccur aOutLink s).map (· + 9) := by
  have h1 : startsWithL aOutLink (vOutLink ++ s) = false := by
    show startsWithL ('[' :: 'c' :: '_' :: 'a' :: ['_', 'o', 'u', 't', ']'])
      ('[' :: 'c' :: '_' :: 'v' :: (['_', 'o', 'u', 't', ']'] ++ s)) = false
    rw [startsWithL_cons_same, startsWithL_cons_same, startsWithL_cons_same]
    exact startsWithL_cons_diff _ _ (by decide)
  have h1x : startsWithL aOutLink
      ('[' :: (['c', '_', 'v', '_', 'o', 'u', 't', ']'] ++ s)) = false := h1
  show firstOccur aOutLink
    ('[' :: (['c', '_', 'v', '_', 'o', 'u', 't', ']'] ++ s)) =
      (firstOccur aOutLink s).map (· + 9)
  rw [firstOccur_cons_not h1x,
    firstOccur_aOut_skip ['c', '_', 'v', '_', 'o', 'u', 't', ']'] s
      (by decide)]
  cases firstOccur aOutLink s <;> simp

theorem splitAtBracketRev_lit (r : List Char) :
    splitAtBracketRev
        ('t' :: 'u' :: 'o' :: '_' :: 'a' :: '_' :: 'c' :: '[' :: r) =
      some (['t', 'u', 'o', '_', 'a', '_', 'c'], r) := by
  simp [splitAtBracketRev]

theorem splitAtBracketRev_none {t : List Char} (h : '[' ∉ t) :
    splitAtBracketRev t = none := by
  induction t with
  | nil => rfl
  | cons c r ih =>
      have hc : ¬ c = '[' := fun hh => h (by simp [hh])
      simp [splitAtBracketRev, hc,
        ih (fun hm => h (List.mem_cons_of_mem _ hm))]

theorem stripTrail_append_aOut (a : List Char) :
    stripTrail (a ++ aOutLink) = a := by
  have hrev : (a ++ aOutLink).reverse =
      ']' :: (['t', 'u', 'o', '_', 'a', '_', 'c', '['] ++ a.reverse) := by
    rw [List.reverse_append]
    rfl
  unfold stripTrail
  rw [hrev]
  simp [splitAtBracketRev_lit]

theorem stripLead_cons_id {c : Char} (u : List Char) (h1 : ¬ c = ';')
    (h2 : ¬ c = '[') : stripLead (c :: u) = c :: u := by
  simp [stripLead, matchBracketGreedy, h1, h2]

theorem stripLead_id {v : List Char} (hv : '[' ∉ v)
    (hv2 : v.head? ≠ some ';') : stripLead v = v := by
  cases v with
  | nil => rfl
  | cons c t =>
      have h1 : ¬ c = ';' := fun h => hv2 (by simp [h])
      have h2 : ¬ c = '[' := fun h => hv (by simp [h])
      exact stripLead_cons_id t h1 h2

theorem stripTrail_id {v : List Char} (hv : '[' ∉ v) : stripTrail v = v := by
  unfold stripTrail
  rcases hrev : v.reverse with _ | ⟨c, t⟩
  · rfl
  · have ht : '[' ∉ t := by
      intro hm
      have hr : '[' ∈ v.reverse := by
        rw [hrev]
        exact List.mem_cons_of_mem _ hm
      exact hv (List.mem_reverse.mp hr)
    by_cases hc : c = ']'
    · simp [hc, splitAtBracketRev_none ht]
    · simp [hc]

theorem reStrip_id {v : List Char} (hv : '[' ∉ v)
    (hv2 : v.head? ≠ some ';') : reStrip v = v := by
  unfold reStrip
  rw [stripLead_id hv hv2, stripTrail_id hv]

theorem reStrip_append_aOut {a : List Char} (ha : '[' ∉ a)
    (ha2 : a.head? ≠ some ';') : reStrip (a ++ aOutLink) = a := by
  cases a with
  | nil => decide
  | cons c t =>
      have h1 : ¬ c = ';' := fun h => ha2 (by simp [h])
      have h2 : ¬ c = '[' := fun h => ha (by simp [h])
      show stripTrail (stripLead (c :: (t ++ aOutLink))) = c :: t
      rw [stripLead_cons_id _ h1 h2]
      exact stripTrail_append_aOut (c :: t)

theorem not_startsWith_vIn {v : List Char} (hv : '[' ∉ v)
    (X : List Char) :
    startsWithL vInLink (v ++ (vOutLink ++ X)) = false := by
  cases v with
  | nil =>
      show startsWithL ('[' :: ['v', '_', 'i', 'n', ']'])
        ('[' :: (['c', '_', 'v', '_', 'o', 'u', 't', ']'] ++ X)) = false
      rw [startsWithL_cons_same]
      exact startsWithL_cons_diff _ _ (by decide)
  | cons c t =>
      exact startsWithL_cons_diff _ _ (fun h => hv (by simp [← h]))

/-- Concrete input for the C3 counterexample: both markers present, with
content following the audio-out marker. -/
def c3cex : List Char :=
  ['a', '[', 'c', '_', 'v', '_', 'o', 'u', 't', ']', 'b', '[', 'c', '_',
    'a', '_', 'o', 'u', 't', ']', 'c']

/-- Concrete input for the C9 counterexample: starts with the video-input
marker, contains neither out marker. -/
def c9cex : List Char := ['[', 'v', '_', 'i', 'n', ']', 'x']

/-- C3 counterexample: on `"a[c_v_out]b[c_a_out]c"` (both markers present)
the returned audio chain still contains the `[c_a_out]` marker — a marker
token leaks into the output, contrary to the claim. -/
theorem filter_marker_leak_cex :
    occursIn vOutLink c3cex = true ∧ occursIn aOutLink c3cex = true ∧
    occursIn aOutLink (filter_node c3cex).audio = true := by
  decide

/-- C3 (amended): `filter_node` splits at whichever marker occurs first
(removing only that delimiter occurrence), assigns the half that still
contains the audio-out marker as the audio chain (otherwise the first
half), and strips only one leading and one trailing link label per half —
so marker occurrences beyond the delimiter can remain in the output.  For
well-formed inputs `v ++ "[c_v_out]" ++ a ++ "[c_a_out]"` whose chains
contain no `[` (and do not start with `;`), the result is exactly
`(v, a)` with no marker in either chain. -/
theorem filter_both_markers_split (v a : List Char) (hv : '[' ∉ v)
    (ha : '[' ∉ a) (hv2 : v.head? ≠ some ';') (ha2 : a.head? ≠ some ';') :
    filter_node (v ++ (vOutLink ++ (a ++ aOutLink))) = ⟨v, a, false⟩ ∧
    occursIn vOutLink v = false ∧ occursIn aOutLink v = false ∧
    occursIn vOutLink a = false ∧ occursIn aOutLink a = false := by
  have hnv1 : occursIn vOutLink v = false := occursIn_bracket_none hv
  have hnv2 : occursIn aOutLink v = false := occursIn_bracket_none hv
  have hna1 : occursIn vOutLink a = false := occursIn_bracket_none ha
  have hna2 : occursIn aOutLink a = false := occursIn_bracket_none ha
  have fv : firstOccur vOutLink (v ++ (vOutLink ++ (a ++ aOutLink))) =
      some v.length := by
    simp [firstOccur_vOut_skip v _ hv, firstOccur_vOut_self]
  have fa : firstOccur aOutLink (v ++ (vOutLink ++ (a ++ aOutLink))) =
      some (a.length + 9 + v.length) := by
    simp [firstOccur_aOut_skip v _ hv, firstOccur_aOut_past_vOut,
      firstOccur_aOut_skip a _ ha, firstOccur_aOut_refl]
  have hov : occursIn vOutLink (v ++ (vOutLink ++ (a ++ aOutLink))) =
      true := by simp [occursIn, fv]
  have hoa : occursIn aOutLink (v ++ (vOutLink ++ (a ++ aOutLink))) =
      true := by simp [occursIn, fa]
  have hsplit : splitOnce vOutLink (v ++ (vOutLink ++ (a ++ aOutLink))) =
      some (v, a ++ aOutLink) := by
    unfold splitOnce
    rw [fv]
    have ht : (v ++ (vOutLink ++ (a ++ aOutLink))).take v.length = v :=
      List.take_left v _
    have hd : (v ++ (vOutLink ++ (a ++ aOutLink))).drop
        (v.length + vOutLink.length) = a ++ aOutLink := by
      rw [← List.append_assoc]
      have hlen : v.length + vOutLink.length = (v ++ vOutLink).length := by
        simp
      rw [hlen, List.drop_left]
    dsimp only
    rw [ht, hd]
  have haud : occursIn aOutLink (a ++ aOutLink) = true := by
    simp [occursIn, firstOccur_aOut_skip a _ ha, firstOccur_aOut_refl]
  have hcmp : ¬ (a.length + 9 + v.length < v.length) := by omega
  refine ⟨?_, hnv1, hnv2, hna1, hna2⟩
  unfold filter_node filter_node_core
  rw [not_startsWith_vIn hv (a ++ aOutLink)]
  simp only [hov, hoa, Bool.and_self, if_true, fv, fa, Option.getD_some,
    hcmp, if_false, hsplit, haud, Bool.false_eq_true, ite_false]
  rw [reStrip_id hv hv2, reStrip_append_aOut ha ha2]

/-- C3 witness: a concrete well-formed both-marker input splits cleanly. -/
theorem filter_both_markers_split_wit :
    filter_node (['x'] ++ (vOutLink ++ (['y'] ++ aOutLink))) =
      ⟨['x'], ['y'], false⟩ ∧
    occursIn vOutLink ['x'] = false ∧ occursIn aOutLink ['x'] = false ∧
    occursIn vOutLink ['y'] = false ∧ occursIn aOutLink ['y'] = false :=
  filter_both_markers_split ['x'] ['y'] (by decide) (by decide) (by decide)
    (by decide)

/-- C9 counterexample: `"[v_in]x"` is non-empty, not the sentinel, and
contains neither out marker, yet `filter_node` does NOT return two empty
strings — the `[v_in]` post-step makes the video chain `"[v_in]"` (one
warning is still logged). -/
theorem filter_warn_path_cex :
    occursIn vOutLink c9cex = false ∧ occursIn aOutLink c9cex = false ∧
    c9cex ≠ [] ∧ c9cex ≠ tildeTok ∧ (filter_node c9cex).warned = true ∧
    ¬ ((filter_node c9cex).video = [] ∧ (filter_node c9cex).audio = []) := by
  decide

/-- C9 (amended): `filter_node` is total; on inputs containing neither out
marker it returns two empty chains — silently for the empty string and the
`"~"` sentinel, with exactly one logged warning otherwise — except that an
input starting with `"[v_in]"` gets that marker as its video chain (the
warning still fires exactly once). -/
theorem filter_no_marker_behavior (s : List Char)
    (h1 : occursIn vOutLink s = false) (h2 : occursIn aOutLink s = false) :
    filter_node s =
      (if s = [] ∨ s = tildeTok then (⟨[], [], false⟩ : FilterOut)
       else if startsWithL vInLink s then ⟨vInLink, [], true⟩
       else ⟨[], [], true⟩) := by
  by_cases hs0 : s = []
  · subst hs0
    decide
  by_cases hst : s = tildeTok
  · subst hst
    decide
  have hOR : ¬ (s = [] ∨ s = tildeTok) := by
    rintro (h | h)
    · exact hs0 h
    · exact hst h
  rw [if_neg hOR]
  unfold filter_node filter_node_core
  simp only [h1, h2, Bool.false_and, Bool.and_self, Bool.false_eq_true,
    if_false, ite_false]
  by_cases hsw : startsWithL vInLink s = true
  · simp [hsw, hs0, hst]
  · have hsw2 : startsWithL vInLink s = false := by
      revert hsw
      cases startsWithL vInLink s <;> simp
    simp [hsw2, hs0, hst]

/-- C9 witness: the amended behavior at the concrete `"[v_in]x"` input. -/
theorem filter_no_marker_behavior_wit :
    filter_node c9cex =
      (if c9cex = [] ∨ c9cex = tildeTok then (⟨[], [], false⟩ : FilterOut)
       else if startsWithL vInLink c9cex then ⟨vInLink, [], true⟩
       else ⟨[], [], true⟩) :=
  filter_no_marker_behavior c9cex (by decide) (by decide)
